import Mathlib

/-!
Shallow embedding of the TGA decoder (`src/index.ts` of the tga-image
repository) into Lean 4.

Modelling conventions for the JavaScript runtime semantics the source
relies on:

* a `Uint8Array` is modelled as `Array Nat` (every element a byte value);
* `data.subarray(start, end)` clamps both offsets to the array bounds and
  never fails; this is exactly `Array.extract`;
* an out-of-range indexed read `a[i]` yields `undefined`; where the source
  immediately feeds the value to a bitwise operator or stores it into a
  typed array, `undefined` coerces to `0`, so such reads are modelled with
  `Array.getD _ _ 0`; where the `undefined` itself is observable (the
  bytes of a pixel entry flowing into the output, or a palette index),
  reads are modelled with `a[i]?` (`none` = `undefined`);
* an out-of-range indexed write on a typed array is silently discarded;
  this is exactly `Array.setD`;
* `TypedArray.set(src, offset)` throws a `RangeError` when
  `offset + src.length` exceeds the target length, and copies `src`
  byte-for-byte otherwise;
* a `Uint8ClampedArray` store coerces `undefined` to `0` and clamps
  numbers to `0..255` (`toClampedByte`);
* `throw new Error(...)` is modelled with `Except DecodeError`; the
  constructor used at each site mirrors the message thrown there,
  and `typeError` stands for the `TypeError` raised at runtime when the
  non-null assertion `colorMap!` is applied to `null` and the result is
  dereferenced.

The run-length decoding loop of `readImageData` is defined with a fuel
parameter; the top-level call passes `totalByteCount + 1` fuel, which is
always sufficient because every iteration entered with
`current < totalByteCount` advances `current` by at least one byte
(the loop only runs when `pixelSize ≥ 1`).
-/

namespace Tga

/-- Error conditions of the decoder, one constructor per throw site. -/
inductive DecodeError where
  /-- `No enough data to read from ${start} to ${end}.` thrown by `readItem`. -/
  | noEnoughData (start stop : Nat)
  /-- runtime `TypeError` from dereferencing `colorMap!` when the color map is `null`. -/
  | typeError
  /-- `RangeError` thrown by `result.set(pixel, current)` when the copy would
  run past the end of the target buffer. -/
  | rangeError
  /-- `Unsupported pixel size: ${pixelSize}.` thrown by `getPixel`. -/
  | unsupportedPixelSize (n : Nat)
  /-- `Unsupported color map entry size: ${colorMapEntrySize}.` thrown by `getColorMapPixel`. -/
  | unsupportedColorMapEntrySize (n : Nat)
deriving DecidableEq, Repr

/-- The 18-byte TGA file header, one field per `readHeader` record entry. -/
structure TgaHeader where
  idLength : Nat
  colorMapType : Nat
  imageType : Nat
  colorMapStart : Nat
  colorMapLength : Nat
  colorMapEntryDepth : Nat
  xOrigin : Nat
  yOrigin : Nat
  width : Nat
  height : Nat
  pixelDepth : Nat
  descriptor : Nat
deriving DecidableEq, Repr

/-- `TgaInfo extends TgaHeader` with the derived decoding parameters. -/
structure TgaInfo extends TgaHeader where
  isIndexed : Bool
  isGrey : Bool
  isRle : Bool
  pixelSize : Nat
  pixelCount : Nat
  colorMapEntrySize : Nat
  alphaDepth : Nat
deriving DecidableEq, Repr

/-- The record returned by `parseTgaData`. -/
structure TgaResult where
  imageData : Array Nat
  width : Nat
  height : Nat
deriving DecidableEq, Repr

/-- The little-endian accumulation loop of `readItem`:
`for (let i = end - 1; i >= start; i--) result = (result << 8) | data[i]`. -/
def leRead (data : Array Nat) (start length : Nat) : Nat :=
  (List.range length).reverse.foldl
    (fun result i => (result <<< 8) ||| data.getD (start + i) 0) 0

/-- `readItem(data, pointer, length)`: bounds-checked little-endian field
read; returns the value and the advanced pointer. -/
def readItem (data : Array Nat) (pointer length : Nat) :
    Except DecodeError (Nat × Nat) :=
  let start := pointer
  let stop := start + length
  if stop > data.size then
    .error (.noEnoughData start stop)
  else
    .ok (leRead data start length, stop)

/-- `readHeader(data, pointer)`: reads the twelve header fields in order and
applies the 15 → 16 normalization to `colorMapEntryDepth`. -/
def readHeader (data : Array Nat) (pointer : Nat) :
    Except DecodeError (TgaHeader × Nat) := do
  let (idLength, pointer) ← readItem data pointer 1
  let (colorMapType, pointer) ← readItem data pointer 1
  let (imageType, pointer) ← readItem data pointer 1
  let (colorMapStart, pointer) ← readItem data pointer 2
  let (colorMapLength, pointer) ← readItem data pointer 2
  let (colorMapEntryDepth, pointer) ← readItem data pointer 1
  let (xOrigin, pointer) ← readItem data pointer 2
  let (yOrigin, pointer) ← readItem data pointer 2
  let (width, pointer) ← readItem data pointer 2
  let (height, pointer) ← readItem data pointer 2
  let (pixelDepth, pointer) ← readItem data pointer 1
  let (descriptor, pointer) ← readItem data pointer 1
  let header : TgaHeader :=
    { idLength := idLength
      colorMapType := colorMapType
      imageType := imageType
      colorMapStart := colorMapStart
      colorMapLength := colorMapLength
      colorMapEntryDepth := colorMapEntryDepth
      xOrigin := xOrigin
      yOrigin := yOrigin
      width := width
      height := height
      pixelDepth := pixelDepth
      descriptor := descriptor }
  let header :=
    if header.colorMapEntryDepth = 15 then
      { header with colorMapEntryDepth := 16 }
    else
      header
  return (header, pointer)

/-- `createTgaInfo(header)`: derives the decoding parameters.
`IMAGE_TYPE.GREY = 0b11`; `!!(x)` on a number is `x ≠ 0`. -/
def createTgaInfo (header : TgaHeader) : TgaInfo :=
  { toTgaHeader := header
    isIndexed := header.imageType == 1 || header.imageType == 9
    isGrey := (header.imageType &&& 0b00000011) != 0
    isRle := (header.imageType >>> 3) != 0
    pixelSize := header.pixelDepth >>> 3
    pixelCount := header.width * header.height
    colorMapEntrySize := header.colorMapEntryDepth >>> 3
    alphaDepth := header.descriptor &&& 0b00001111 }

/-- `readColorMap(data, info, pointer)`: `null` when `colorMapType` is `0`,
otherwise a clamped view of the next `colorMapLength * entrySize` bytes.
`subarray` never fails, so no error can arise here. -/
def readColorMap (data : Array Nat) (info : TgaInfo) (pointer : Nat) :
    Option (Array Nat) × Nat :=
  if info.colorMapType = 0 then
    (none, pointer)
  else
    let entrySize := info.colorMapEntryDepth >>> 3
    let byteCount := info.colorMapLength * entrySize
    (some (data.extract pointer (pointer + byteCount)), pointer + byteCount)

/-- `result.set(source, offset)` without the range check: copies `source`
into `result` starting at `offset` (the check lives in `setRepeat`). -/
def jsSet (target source : Array Nat) (offset : Nat) : Array Nat :=
  (List.range source.size).foldl
    (fun t i => t.setD (offset + i) (source.getD i 0)) target

/-- The `for (let i = 0; i < pixelCount; i++) { result.set(pixel, current);
current += pixelSize; }` loop of the RLE branch, including the `RangeError`
that `TypedArray.set` throws when the copy would overrun the target. -/
def setRepeat (result pixel : Array Nat) (current pixelSize count : Nat) :
    Except DecodeError (Array Nat × Nat) :=
  match count with
  | 0 => .ok (result, current)
  | Nat.succ k =>
    if current + pixel.size > result.size then
      .error .rangeError
    else
      setRepeat (jsSet result pixel current) pixel (current + pixelSize) pixelSize k

/-- The `for (let i = 0; i < byteCount; i += 1) result[current++] =
data[pointer.value++]` loop of the raw-packet branch: out-of-range source
reads store `0`, out-of-range target writes are discarded. -/
def copyBytes (data result : Array Nat) (current pointer count : Nat) :
    Array Nat × Nat × Nat :=
  match count with
  | 0 => (result, current, pointer)
  | Nat.succ k =>
    copyBytes data (result.setD current (data.getD pointer 0)) (current + 1) (pointer + 1) k

/-- The `while (current < totalByteCount)` packet loop of `readImageData`,
with explicit fuel (see the module docstring). -/
def readImageDataLoop (data : Array Nat) (totalByteCount pixelSize : Nat)
    (result : Array Nat) (current pointer fuel : Nat) :
    Except DecodeError (Array Nat × Nat) :=
  match fuel with
  | 0 => .ok (result, pointer)
  | Nat.succ f =>
    if current < totalByteCount then
      let headerByte := data.getD pointer 0
      let ptype := (headerByte &&& 0b10000000) >>> 7
      let packetPixelCount := (headerByte &&& 0b01111111) + 1
      if ptype = 1 then
        let pixel := data.extract (pointer + 1) (pointer + 1 + pixelSize)
        match setRepeat result pixel current pixelSize packetPixelCount with
        | .error e => .error e
        | .ok (result, current) =>
          readImageDataLoop data totalByteCount pixelSize result current
            (pointer + 1 + pixelSize) f
      else
        let byteCount := packetPixelCount * pixelSize
        match copyBytes data result current (pointer + 1) byteCount with
        | (result, current, pointer) =>
          readImageDataLoop data totalByteCount pixelSize result current pointer f
    else
      .ok (result, pointer)

/-- `readImageData(data, info, pointer)`: a clamped view for the
uncompressed path, the packet-expansion loop for the RLE path. -/
def readImageData (data : Array Nat) (info : TgaInfo) (pointer : Nat) :
    Except DecodeError (Array Nat × Nat) :=
  let pixelSize := info.pixelSize
  let totalByteCount := info.pixelCount * pixelSize
  if !info.isRle then
    .ok (data.extract pointer (pointer + totalByteCount), pointer + totalByteCount)
  else
    readImageDataLoop data totalByteCount pixelSize
      (mkArray totalByteCount 0) 0 pointer (totalByteCount + 1)

/-- `getColorFrom1ByteEntry(entry)`. -/
def getColorFrom1ByteEntry (entry : Array Nat) : List (Option Nat) :=
  [entry[0]?, entry[0]?, entry[0]?, some 255]

/-- `getColorFrom2ByteEntry(entry)`: 5-5-5 packed RGB decoding. -/
def getColorFrom2ByteEntry (entry : Array Nat) : List (Option Nat) :=
  let value := (entry.getD 1 0 <<< 8) ||| entry.getD 0 0
  let r := (value &&& 0b0111110000000000) >>> 10
  let g := (value &&& 0b0000001111100000) >>> 5
  let b := (value &&& 0b0000000000011111) >>> 0
  [some ((r <<< 3) ||| (r >>> 2)),
   some ((g <<< 3) ||| (g >>> 2)),
   some ((b <<< 3) ||| (b >>> 2)),
   some 255]

/-- `getGreyColorFrom2ByteEntry(entry, alphaDepth)`. -/
def getGreyColorFrom2ByteEntry (entry : Array Nat) (alphaDepth : Nat) :
    List (Option Nat) :=
  [entry[0]?, entry[0]?, entry[0]?, if alphaDepth = 8 then entry[1]? else some 255]

/-- `getColorFrom3ByteEntry(entry)`: BGR byte order. -/
def getColorFrom3ByteEntry (entry : Array Nat) : List (Option Nat) :=
  [entry[2]?, entry[1]?, entry[0]?, some 255]

/-- `getColorFrom4ByteEntry(entry, alphaDepth)`: BGRA byte order. -/
def getColorFrom4ByteEntry (entry : Array Nat) (alphaDepth : Nat) :
    List (Option Nat) :=
  let alpha := if alphaDepth = 8 then entry[3]? else some 255
  [entry[2]?, entry[1]?, entry[0]?, alpha]

/-- `getColorMapPixel(info, colorMap, index)`. The index is an `Option`
because the source can pass `entry[0]` of an empty entry (`undefined`);
`undefined * entrySize` is `NaN`, and `subarray(NaN, NaN + entrySize)`
clamps both offsets to `0`, yielding an empty entry. -/
def getColorMapPixel (info : TgaInfo) (colorMap : Array Nat) (index : Option Nat) :
    Except DecodeError (List (Option Nat)) :=
  let entrySize := info.colorMapEntrySize
  let entry :=
    match index with
    | some i => colorMap.extract (i * entrySize) (i * entrySize + entrySize)
    | none => #[]
  match entrySize with
  | 2 => .ok (getColorFrom2ByteEntry entry)
  | 3 => .ok (getColorFrom3ByteEntry entry)
  | 4 => .ok (getColorFrom4ByteEntry entry info.alphaDepth)
  | n => .error (.unsupportedColorMapEntrySize n)

/-- `getPixel(info, imageData, colorMap, index)`. -/
def getPixel (info : TgaInfo) (imageData : Array Nat)
    (colorMap : Option (Array Nat)) (index : Nat) :
    Except DecodeError (List (Option Nat)) :=
  let pixelSize := info.pixelSize
  let start := index * pixelSize
  let entry := imageData.extract start (start + pixelSize)
  match pixelSize with
  | 1 =>
    if info.isIndexed then
      match colorMap with
      | some cm => getColorMapPixel info cm entry[0]?
      | none => .error .typeError
    else if info.isGrey then
      .ok (getColorFrom1ByteEntry entry)
    else
      .error (.unsupportedPixelSize 1)
  | 2 =>
    if info.isIndexed then
      match colorMap with
      | some cm => getColorMapPixel info cm (some ((entry.getD 1 0 <<< 8) ||| entry.getD 0 0))
      | none => .error .typeError
    else if info.isGrey then
      .ok (getGreyColorFrom2ByteEntry entry info.alphaDepth)
    else
      .ok (getColorFrom2ByteEntry entry)
  | 3 => .ok (getColorFrom3ByteEntry entry)
  | 4 => .ok (getColorFrom4ByteEntry entry info.alphaDepth)
  | n => .error (.unsupportedPixelSize n)

/-- A store into a `Uint8ClampedArray` coerces `undefined` to `0` and
clamps numbers to the byte range. -/
def toClampedByte (v : Option Nat) : Nat :=
  match v with
  | none => 0
  | some n => min n 255

/-- The four `displayData[start + k] = pixel[k]` stores of `parseImageData`. -/
def storePixel (displayData : Array Nat) (start : Nat) (pixel : List (Option Nat)) :
    Array Nat :=
  (((displayData.setD start (toClampedByte (pixel.getD 0 none))).setD
    (start + 1) (toClampedByte (pixel.getD 1 none))).setD
    (start + 2) (toClampedByte (pixel.getD 2 none))).setD
    (start + 3) (toClampedByte (pixel.getD 3 none))

/-- `parseImageData(info, imageData, colorMap)`: translates every pixel and
packs the four channels into the `pixelCount * 4`-byte display buffer. -/
def parseImageData (info : TgaInfo) (imageData : Array Nat)
    (colorMap : Option (Array Nat)) : Except DecodeError (Array Nat) :=
  (List.range info.pixelCount).foldlM
    (fun displayData i =>
      match getPixel info imageData colorMap i with
      | .error e => .error e
      | .ok pixel => .ok (storePixel displayData (i * 4) pixel))
    (mkArray (info.pixelCount * 4) 0)

/-- `parseTgaData(data)`: the full decoding pipeline. -/
def parseTgaData (data : Array Nat) : Except DecodeError TgaResult := do
  let (header, pointer) ← readHeader data 0
  let info := createTgaInfo header
  let pointer := pointer + header.idLength
  let (colorMap, pointer) := readColorMap data info pointer
  let (rawImageData, _) ← readImageData data info pointer
  let displayData ← parseImageData info rawImageData colorMap
  return { imageData := displayData, width := info.width, height := info.height }

/-! ### Helper lemmas about the array model -/

theorem getD_setD_ne (a : Array Nat) (i j v : Nat) (h : i ≠ j) :
    (a.setD i v).getD j 0 = a.getD j 0 := by
  unfold Array.setD
  split
  · rw [Array.getD_eq_get?, Array.getD_eq_get?]
    rcases Nat.lt_or_ge j a.size with hj | hj
    · rw [Array.getElem?_eq_getElem (by simpa using hj), Array.getElem?_eq_getElem hj]
      rw [Array.getElem_set_ne]
      exact h
    · rw [Array.getElem?_len_le _ (by simpa using hj), Array.getElem?_len_le _ hj]
  · rfl

theorem getD_setD_eq (a : Array Nat) (i v : Nat) (h : i < a.size) :
    (a.setD i v).getD i 0 = v := by
  unfold Array.setD
  rw [dif_pos h, Array.getD_eq_get?, Array.getElem?_eq_getElem (by simpa using h)]
  simp [Array.getElem_set]

theorem jsSet_size (target source : Array Nat) (offset : Nat) :
    (jsSet target source offset).size = target.size := by
  unfold jsSet
  generalize List.range source.size = l
  induction l generalizing target with
  | nil => rfl
  | cons a l ih => simpa [Array.size_setD] using ih (target.setD (offset + a) (source.getD a 0))

theorem copyBytes_size (data : Array Nat) :
    ∀ (count : Nat) (result : Array Nat) (current pointer : Nat),
      (copyBytes data result current pointer count).1.size = result.size := by
  intro count
  induction count with
  | zero => intro result current pointer; rfl
  | succ k ih =>
    intro result current pointer
    simpa [copyBytes, Array.size_setD] using
      ih (result.setD current (data.getD pointer 0)) (current + 1) (pointer + 1)

theorem setRepeat_ok_size :
    ∀ (count : Nat) (result pixel : Array Nat) (current pixelSize : Nat)
      (out : Array Nat) (cur2 : Nat),
      setRepeat result pixel current pixelSize count = .ok (out, cur2) →
      out.size = result.size := by
  intro count
  induction count with
  | zero =>
    intro result pixel current pixelSize out cur2 h
    simp only [setRepeat] at h
    cases h
    rfl
  | succ k ih =>
    intro result pixel current pixelSize out cur2 h
    simp only [setRepeat] at h
    split at h
    · cases h
    · have := ih (jsSet result pixel current) pixel (current + pixelSize) pixelSize out cur2 h
      rw [this, jsSet_size]

theorem readImageDataLoop_ok_size :
    ∀ (fuel : Nat) (data : Array Nat) (totalByteCount pixelSize : Nat)
      (result : Array Nat) (current pointer : Nat) (out : Array Nat) (p2 : Nat),
      readImageDataLoop data totalByteCount pixelSize result current pointer fuel =
        .ok (out, p2) →
      out.size = result.size := by
  intro fuel
  induction fuel with
  | zero =>
    intro data tot ps result current pointer out p2 h
    simp only [readImageDataLoop] at h
    cases h
    rfl
  | succ f ih =>
    intro data tot ps result current pointer out p2 h
    simp only [readImageDataLoop] at h
    split at h
    · split at h
      · split at h
        · cases h
        · rename_i r hrep
          have h1 := setRepeat_ok_size _ _ _ _ _ _ _ hrep
          have h2 := ih _ _ _ _ _ _ _ _ h
          rw [h2, h1]
      · have h1 := copyBytes_size data ((data.getD pointer 0 &&& 127) + 1 * ps) result current (pointer + 1)
        have h2 := ih _ _ _ _ _ _ _ _ h
        rw [h2, copyBytes_size]
    · cases h
      rfl

theorem storePixel_size (displayData : Array Nat) (start : Nat)
    (pixel : List (Option Nat)) :
    (storePixel displayData start pixel).size = displayData.size := by
  simp [storePixel, Array.size_setD]

theorem parseImageData_foldlM_size (info : TgaInfo) (imageData : Array Nat)
    (colorMap : Option (Array Nat)) :
    ∀ (l : List Nat) (init out : Array Nat),
      (l.foldlM
        (fun displayData i =>
          match getPixel info imageData colorMap i with
          | .error e => .error e
          | .ok pixel => .ok (storePixel displayData (i * 4) pixel)) init :
        Except DecodeError (Array Nat)) =
        .ok out →
      out.size = init.size := by
  intro l
  induction l with
  | nil =>
    intro init out h
    simp only [List.foldlM] at h
    cases h
    rfl
  | cons a l ih =>
    intro init out h
    rw [List.foldlM_cons] at h
    cases hg : getPixel info imageData colorMap a with
    | error e => rw [hg] at h; cases h
    | ok pixel =>
      rw [hg] at h
      have := ih (storePixel init (a * 4) pixel) out h
      rw [this, storePixel_size]

theorem parseImageData_ok_size (info : TgaInfo) (imageData : Array Nat)
    (colorMap : Option (Array Nat)) (out : Array Nat)
    (h : parseImageData info imageData colorMap = .ok out) :
    out.size = info.pixelCount * 4 := by
  unfold parseImageData at h
  have := parseImageData_foldlM_size info imageData colorMap _ _ _ h
  simpa [Array.size_mkArray] using this

theorem leRead_one (data : Array Nat) (s : Nat) : leRead data s 1 = data.getD s 0 := by
  simp [leRead, List.range_succ, Nat.zero_shiftLeft, Nat.zero_or]

theorem parseTgaData_header_error (data : Array Nat) (er : DecodeError)
    (h : readHeader data 0 = .error er) : parseTgaData data = .error er := by
  unfold parseTgaData
  rw [h]
  rfl

theorem readHeader_short_err (data : Array Nat) (hlt : data.size < 18) :
    ∃ s e, e > data.size ∧ readHeader data 0 = .error (.noEnoughData s e) := by
  simp only [readHeader, readItem, bind]
  repeat'
    first
    | exact ⟨_, _, by omega, rfl⟩
    | omega
    | (dsimp only [Except.bind]; split_ifs)

theorem readHeader_ok_eq (data : Array Nat) (h18 : 18 ≤ data.size) :
    readHeader data 0 =
      .ok (if leRead data 7 1 = 15 then
        { idLength := leRead data 0 1, colorMapType := leRead data 1 1,
          imageType := leRead data 2 1, colorMapStart := leRead data 3 2,
          colorMapLength := leRead data 5 2, colorMapEntryDepth := 16,
          xOrigin := leRead data 8 2, yOrigin := leRead data 10 2,
          width := leRead data 12 2, height := leRead data 14 2,
          pixelDepth := leRead data 16 1, descriptor := leRead data 17 1 }
      else
        { idLength := leRead data 0 1, colorMapType := leRead data 1 1,
          imageType := leRead data 2 1, colorMapStart := leRead data 3 2,
          colorMapLength := leRead data 5 2, colorMapEntryDepth := leRead data 7 1,
          xOrigin := leRead data 8 2, yOrigin := leRead data 10 2,
          width := leRead data 12 2, height := leRead data 14 2,
          pixelDepth := leRead data 16 1, descriptor := leRead data 17 1 }, 18) := by
  simp only [readHeader, readItem, bind]
  repeat'
    first
    | rfl
    | omega
    | (dsimp only [Except.bind]; split_ifs)

theorem lor_shiftLeft_eq_add (a b k : Nat) (hb : b < 2 ^ k) :
    (a <<< k) ||| b = a * 2 ^ k + b := by
  apply Nat.eq_of_testBit_eq
  intro i
  rw [Nat.testBit_lor, Nat.testBit_shiftLeft, Nat.mul_comm, Nat.testBit_mul_pow_two_add a hb i]
  by_cases hik : i < k
  · have hik2 : ¬ (i ≥ k) := by omega
    simp [hik, hik2]
  · have hik2 : i ≥ k := by omega
    have hbi : b.testBit i = false :=
      Nat.testBit_lt_two_pow (lt_of_lt_of_le hb (Nat.pow_le_pow_right (by norm_num) hik2))
    simp [hik, hik2, hbi]

theorem and_mask_shiftLeft (v m k : Nat) :
    v &&& (m <<< k) = ((v >>> k) &&& m) <<< k := by
  apply Nat.eq_of_testBit_eq
  intro i
  rw [Nat.testBit_land, Nat.testBit_shiftLeft, Nat.testBit_shiftLeft, Nat.testBit_land,
    Nat.testBit_shiftRight]
  by_cases hik : i ≥ k
  · have hki : k + (i - k) = i := by omega
    simp [hik, hki]
  · simp [hik]

theorem and31_eq_mod (v : Nat) : v &&& 31 = v % 32 := by
  have h := Nat.and_pow_two_sub_one_eq_mod v 5
  norm_num at h
  exact h

theorem maskShift_eq (v k : Nat) : (v &&& (31 <<< k)) >>> k = (v / 2 ^ k) % 32 := by
  rw [and_mask_shiftLeft, Nat.shiftLeft_shiftRight, Nat.shiftRight_eq_div_pow, and31_eq_mod]

theorem expand5 (x : Nat) (hx : x < 32) : (x <<< 3) ||| (x >>> 2) = x * 8 + x / 4 := by
  have h4 : x >>> 2 = x / 4 := by
    rw [Nat.shiftRight_eq_div_pow]
  rw [h4]
  have hd : x / 4 < 2 ^ 3 := by
    norm_num
    omega
  have h := lor_shiftLeft_eq_add x (x / 4) 3 hd
  simpa using h

theorem extract_of_le (a : Array Nat) (s e : Nat) (h : a.size ≤ s) :
    a.extract s e = #[] := by
  apply Array.eq_empty_of_size_eq_zero
  rw [Array.size_extract]
  omega

theorem jsSet_foldl_size (source : Array Nat) (offset : Nat) :
    ∀ (l : List Nat) (t : Array Nat),
      (l.foldl (fun t i => t.setD (offset + i) (source.getD i 0)) t).size = t.size := by
  intro l
  induction l with
  | nil => intro t; rfl
  | cons a l ih =>
    intro t
    simpa [Array.size_setD] using ih (t.setD (offset + a) (source.getD a 0))

theorem jsSet_foldl_spec (source : Array Nat) (offset : Nat) :
    ∀ (n : Nat) (t : Array Nat),
      (∀ j, (j < offset ∨ offset + n ≤ j) →
        ((List.range n).foldl (fun t i => t.setD (offset + i) (source.getD i 0)) t).getD j 0 =
          t.getD j 0) ∧
      (∀ r, r < n → offset + r < t.size →
        ((List.range n).foldl (fun t i => t.setD (offset + i) (source.getD i 0)) t).getD
          (offset + r) 0 = source.getD r 0) := by
  intro n
  induction n with
  | zero =>
    intro t
    exact ⟨fun j hj => rfl, fun r hr => absurd hr (by omega)⟩
  | succ m ih =>
    intro t
    rw [List.range_succ, List.foldl_append]
    constructor
    · intro j hj
      rw [List.foldl_cons, List.foldl_nil, getD_setD_ne _ _ _ _ (by omega)]
      exact (ih t).1 j (by omega)
    · intro r hr hin
      rw [List.foldl_cons, List.foldl_nil]
      by_cases hrm : r = m
      · subst hrm
        rw [getD_setD_eq]
        rw [jsSet_foldl_size]
        exact hin
      · rw [getD_setD_ne _ _ _ _ (by omega)]
        exact (ih t).2 r (by omega) hin

theorem jsSet_getD_outside (target source : Array Nat) (offset j : Nat)
    (hj : j < offset ∨ offset + source.size ≤ j) :
    (jsSet target source offset).getD j 0 = target.getD j 0 :=
  (jsSet_foldl_spec source offset source.size target).1 j hj

theorem jsSet_getD_in (target source : Array Nat) (offset r : Nat)
    (hr : r < source.size) (hin : offset + r < target.size) :
    (jsSet target source offset).getD (offset + r) 0 = source.getD r 0 :=
  (jsSet_foldl_spec source offset source.size target).2 r hr hin

theorem copyBytes_spec (data : Array Nat) :
    ∀ (k : Nat) (res : Array Nat) (c p : Nat),
      (copyBytes data res c p k).2.1 = c + k ∧
      (copyBytes data res c p k).2.2 = p + k ∧
      (copyBytes data res c p k).1.size = res.size ∧
      (∀ j, (j < c ∨ c + k ≤ j) → (copyBytes data res c p k).1.getD j 0 = res.getD j 0) ∧
      (∀ i, i < k → c + i < res.size →
        (copyBytes data res c p k).1.getD (c + i) 0 = data.getD (p + i) 0) := by
  intro k
  induction k with
  | zero =>
    intro res c p
    exact ⟨rfl, rfl, rfl, fun j hj => rfl, fun i hi => absurd hi (by omega)⟩
  | succ m ih =>
    intro res c p
    simp only [copyBytes]
    obtain ⟨ih1, ih2, ih3, ih4, ih5⟩ := ih (res.setD c (data.getD p 0)) (c + 1) (p + 1)
    refine ⟨by omega, by omega, by rw [ih3, Array.size_setD], ?_, ?_⟩
    · intro j hj
      rw [ih4 j (by omega), getD_setD_ne _ _ _ _ (by omega)]
    · intro i hi hin
      by_cases hi0 : i = 0
      · subst hi0
        simp only [Nat.add_zero]
        rw [ih4 c (by omega), getD_setD_eq _ _ _ (by simpa using hin)]
      · have hdecomp : c + i = (c + 1) + (i - 1) := by omega
        rw [hdecomp, ih5 (i - 1) (by omega) (by rw [Array.size_setD]; omega)]
        congr 1
        omega

theorem setRepeat_spec :
    ∀ (n : Nat) (res pix : Array Nat) (c ps : Nat),
      pix.size = ps → c + n * ps ≤ res.size →
      ∃ out, setRepeat res pix c ps n = .ok (out, c + n * ps) ∧ out.size = res.size ∧
        (∀ j, (j < c ∨ c + n * ps ≤ j) → out.getD j 0 = res.getD j 0) ∧
        (∀ i r, i < n → r < ps → out.getD (c + (i * ps + r)) 0 = pix.getD r 0) := by
  intro n
  induction n with
  | zero =>
    intro res pix c ps hps hle
    refine ⟨res, ?_, rfl, fun j hj => rfl, fun i r hi => absurd hi (by omega)⟩
    simp [setRepeat]
  | succ m ih =>
    intro res pix c ps hps hle
    have hmul : (m + 1) * ps = m * ps + ps := by ring
    have hnotover : ¬ (c + pix.size > res.size) := by omega
    obtain ⟨out, hout, hsize, houtside, hin⟩ :=
      ih (jsSet res pix c) pix (c + ps) ps hps (by rw [jsSet_size]; omega)
    refine ⟨out, ?_, by rw [hsize, jsSet_size], ?_, ?_⟩
    · simp only [setRepeat]
      rw [if_neg hnotover, hout]
      congr 2
      omega
    · intro j hj
      rw [houtside j (by omega), jsSet_getD_outside _ _ _ _ (by omega)]
    · intro i r hi hr
      by_cases hi0 : i = 0
      · subst hi0
        simp only [Nat.zero_mul, Nat.zero_add]
        rw [houtside (c + r) (by omega), jsSet_getD_in _ _ _ _ (by omega) (by omega)]
      · have hdecomp : c + (i * ps + r) = (c + ps) + ((i - 1) * ps + r) := by
          have : i * ps = (i - 1) * ps + ps := by
            have hi1 : i = (i - 1) + 1 := by omega
            calc i * ps = ((i - 1) + 1) * ps := by rw [← hi1]
            _ = (i - 1) * ps + ps := by ring
          omega
        rw [hdecomp]
        exact hin (i - 1) r (by omega) hr

theorem readImageDataLoop_done (data : Array Nat) (tot ps : Nat) (res : Array Nat)
    (current pointer fuel : Nat) (h : ¬ current < tot) :
    readImageDataLoop data tot ps res current pointer fuel = .ok (res, pointer) := by
  cases fuel with
  | zero => rfl
  | succ f =>
    simp only [readImageDataLoop]
    rw [if_neg h]

theorem singleton_append_getD_zero (x : Nat) (a : Array Nat) :
    (#[x] ++ a).getD 0 0 = x := by
  rw [Array.getD_eq_get?, Array.getElem?_append]
  simp

theorem singleton_append_getD_succ (x : Nat) (a : Array Nat) (i : Nat) :
    (#[x] ++ a).getD (1 + i) 0 = a.getD i 0 := by
  rw [Array.getD_eq_get?, Array.getElem?_append, Array.getD_eq_get?]
  simp

theorem singleton_append_extract (x : Nat) (a : Array Nat) :
    (#[x] ++ a).extract 1 (1 + a.size) = a := by
  apply Array.ext
  · rw [Array.size_extract, Array.size_append]
    simp
  · intro i hi1 hi2
    rw [Array.getElem_extract, Array.getElem_append]
    split
    · rename_i hlt
      simp at hlt
    · rename_i hge
      congr 1
      simp

set_option maxRecDepth 4096 in
theorem rle_headerByte_bits :
    ∀ k : Fin 128, ((128 + k.val) &&& 128) >>> 7 = 1 ∧ (128 + k.val) &&& 127 = k.val := by
  decide

set_option maxRecDepth 4096 in
theorem raw_headerByte_bits :
    ∀ k : Fin 128, (k.val &&& 128) >>> 7 = 0 ∧ k.val &&& 127 = k.val := by
  decide

theorem readImageData_rle_packet (info : TgaInfo) (pix : Array Nat) (n : Nat)
    (hrle : info.isRle = true) (hps : 1 ≤ info.pixelSize) (hn1 : 1 ≤ n) (hn2 : n ≤ 128)
    (hpc : info.pixelCount = n) (hpix : pix.size = info.pixelSize) :
    ∃ out, readImageData (#[127 + n] ++ pix) info 0 = .ok (out, 1 + info.pixelSize) ∧
      out.size = n * info.pixelSize ∧
      (∀ i r, i < n → r < info.pixelSize →
        out.getD (i * info.pixelSize + r) 0 = pix.getD r 0) := by
  have hbits := rle_headerByte_bits ⟨n - 1, by omega⟩
  have hb1 : ((128 + (n - 1)) &&& 128) >>> 7 = 1 := hbits.1
  have hb2 : (128 + (n - 1)) &&& 127 = n - 1 := hbits.2
  have h127 : 127 + n = 128 + (n - 1) := by omega
  obtain ⟨out, hsr, hsize, houtside, hin⟩ :=
    setRepeat_spec n (mkArray (n * info.pixelSize) 0) pix 0 info.pixelSize hpix
      (by rw [Array.size_mkArray]; omega)
  refine ⟨out, ?_, by rw [hsize, Array.size_mkArray], ?_⟩
  · unfold readImageData
    rw [hrle, hpc]
    simp only [Bool.not_true]
    rw [if_neg (by decide)]
    simp only [readImageDataLoop]
    rw [if_pos (Nat.mul_pos (by omega) (by omega))]
    rw [singleton_append_getD_zero, h127, hb1, hb2]
    rw [if_pos rfl]
    have hcount : n - 1 + 1 = n := by omega
    rw [hcount]
    have hext : (#[128 + (n - 1)] ++ pix).extract (0 + 1) (0 + 1 + info.pixelSize) = pix := by
      have := singleton_append_extract (128 + (n - 1)) pix
      rw [hpix] at this
      simpa using this
    rw [hext, hsr]
    dsimp only
    rw [readImageDataLoop_done _ _ _ _ _ _ _ (by omega)]
  · intro i r hi hr
    have := hin i r hi hr
    simpa using this

theorem readImageData_raw_packet (info : TgaInfo) (bytes : Array Nat) (n : Nat)
    (hrle : info.isRle = true) (hps : 1 ≤ info.pixelSize) (hn1 : 1 ≤ n) (hn2 : n ≤ 128)
    (hpc : info.pixelCount = n) (hbytes : bytes.size = n * info.pixelSize) :
    ∃ out, readImageData (#[n - 1] ++ bytes) info 0 = .ok (out, 1 + n * info.pixelSize) ∧
      out.size = n * info.pixelSize ∧
      (∀ j, j < n * info.pixelSize → out.getD j 0 = bytes.getD j 0) := by
  have hbits := raw_headerByte_bits ⟨n - 1, by omega⟩
  have hb1 : ((n - 1) &&& 128) >>> 7 = 0 := hbits.1
  have hb2 : (n - 1) &&& 127 = n - 1 := hbits.2
  have hcount : n - 1 + 1 = n := by omega
  obtain ⟨hc1, hc2, hc3, hc4, hc5⟩ :=
    copyBytes_spec (#[n - 1] ++ bytes) (n * info.pixelSize)
      (mkArray (n * info.pixelSize) 0) 0 (0 + 1)
  refine ⟨(copyBytes (#[n - 1] ++ bytes) (mkArray (n * info.pixelSize) 0) 0 (0 + 1)
      (n * info.pixelSize)).1, ?_, ?_, ?_⟩
  · unfold readImageData
    rw [hrle, hpc]
    simp only [Bool.not_true]
    rw [if_neg (by decide)]
    simp only [readImageDataLoop]
    rw [if_pos (Nat.mul_pos (by omega) (by omega))]
    rw [singleton_append_getD_zero, hb1, hb2, hcount]
    rw [if_neg (by decide)]
    have hcbeq : copyBytes (#[n - 1] ++ bytes) (mkArray (n * info.pixelSize) 0) 0 (0 + 1)
        (n * info.pixelSize) =
        ((copyBytes (#[n - 1] ++ bytes) (mkArray (n * info.pixelSize) 0) 0 (0 + 1)
          (n * info.pixelSize)).1, 0 + n * info.pixelSize, 0 + 1 + n * info.pixelSize) := by
      rw [← hc1, ← hc2]
    rw [hcbeq]
    dsimp only
    rw [readImageDataLoop_done _ _ _ _ _ _ _ (by omega)]
  · rw [hc3, Array.size_mkArray]
  · intro j hj
    have h5 := hc5 j hj (by rw [Array.size_mkArray]; omega)
    simp only [Nat.zero_add] at h5
    rw [h5]
    have := singleton_append_getD_succ (n - 1) bytes j
    simpa using this

theorem leRead_foldl_congr (d1 d2 : Array Nat) (s : Nat) :
    ∀ (L : List Nat) (r : Nat),
      (∀ i ∈ L, d1.getD (s + i) 0 = d2.getD (s + i) 0) →
      L.foldl (fun result i => (result <<< 8) ||| d1.getD (s + i) 0) r =
      L.foldl (fun result i => (result <<< 8) ||| d2.getD (s + i) 0) r := by
  intro L
  induction L with
  | nil => intro r hmem; rfl
  | cons a L ih =>
    intro r hmem
    rw [List.foldl_cons, List.foldl_cons, hmem a (by simp)]
    exact ih _ (fun i hi => hmem i (by simp [hi]))

theorem leRead_congr (d1 d2 : Array Nat)
    (hagree : ∀ i, i ≠ 3 → i ≠ 4 → d1.getD i 0 = d2.getD i 0)
    (s l : Nat) (havoid : ∀ i, i < l → s + i ≠ 3 ∧ s + i ≠ 4) :
    leRead d1 s l = leRead d2 s l := by
  unfold leRead
  apply leRead_foldl_congr
  intro i hi
  rw [List.mem_reverse, List.mem_range] at hi
  exact hagree (s + i) (havoid i hi).1 (havoid i hi).2

theorem extract_congr (d1 d2 : Array Nat) (hsize : d1.size = d2.size)
    (hagree : ∀ i, i ≠ 3 → i ≠ 4 → d1.getD i 0 = d2.getD i 0)
    (s e : Nat) (hs : 5 ≤ s) : d1.extract s e = d2.extract s e := by
  apply Array.ext
  · rw [Array.size_extract, Array.size_extract, hsize]
  · intro i hi1 hi2
    rw [Array.size_extract] at hi1 hi2
    have hr1 : s + i < d1.size := by omega
    have hr2 : s + i < d2.size := by omega
    rw [Array.getElem_extract, Array.getElem_extract]
    have hg := hagree (s + i) (by omega) (by omega)
    rw [Array.getD_eq_get?, Array.getD_eq_get?, Array.getElem?_eq_getElem hr1,
      Array.getElem?_eq_getElem hr2] at hg
    simpa using hg

theorem copyBytes_congr (d1 d2 : Array Nat)
    (hagree : ∀ i, i ≠ 3 → i ≠ 4 → d1.getD i 0 = d2.getD i 0) :
    ∀ (k : Nat) (res : Array Nat) (c p : Nat), 5 ≤ p →
      copyBytes d1 res c p k = copyBytes d2 res c p k := by
  intro k
  induction k with
  | zero => intro res c p hp; rfl
  | succ m ih =>
    intro res c p hp
    simp only [copyBytes]
    rw [hagree p (by omega) (by omega)]
    exact ih _ _ _ (by omega)

theorem readImageDataLoop_congr (d1 d2 : Array Nat) (hsize : d1.size = d2.size)
    (hagree : ∀ i, i ≠ 3 → i ≠ 4 → d1.getD i 0 = d2.getD i 0) :
    ∀ (fuel tot ps : Nat) (res : Array Nat) (cur p : Nat), 5 ≤ p →
      readImageDataLoop d1 tot ps res cur p fuel =
      readImageDataLoop d2 tot ps res cur p fuel := by
  intro fuel
  induction fuel with
  | zero => intro tot ps res cur p hp; rfl
  | succ f ih =>
    intro tot ps res cur p hp
    simp only [readImageDataLoop]
    rw [hagree p (by omega) (by omega),
      extract_congr d1 d2 hsize hagree (p + 1) (p + 1 + ps) (by omega),
      copyBytes_congr d1 d2 hagree _ _ _ _ (by omega)]
    split_ifs with hcur hpt
    · cases hsr : setRepeat res (d2.extract (p + 1) (p + 1 + ps)) cur ps
          ((d2.getD p 0 &&& 127) + 1) with
      | error e => rfl
      | ok rc =>
        rcases rc with ⟨r, c⟩
        dsimp only
        exact ih tot ps r c (p + 1 + ps) (by omega)
    · rcases hcb : copyBytes d2 res cur (p + 1) (((d2.getD p 0 &&& 127) + 1) * ps) with
        ⟨r, c, p2⟩
      dsimp only
      have hp2 : p2 = (p + 1) + ((d2.getD p 0 &&& 127) + 1) * ps := by
        have hsp := (copyBytes_spec d2 (((d2.getD p 0 &&& 127) + 1) * ps) res cur (p + 1)).2.1
        rw [hcb] at hsp
        exact hsp
      exact ih tot ps r c p2 (by omega)
    · rfl

theorem readHeader_congr (d1 d2 : Array Nat) (hsize : d1.size = d2.size)
    (hagree : ∀ i, i ≠ 3 → i ≠ 4 → d1.getD i 0 = d2.getD i 0) :
    (∃ er, readHeader d1 0 = .error er ∧ readHeader d2 0 = .error er) ∨
    (∃ hd1 hd2 : TgaHeader,
      readHeader d1 0 = .ok (hd1, 18) ∧ readHeader d2 0 = .ok (hd2, 18) ∧
      hd1.idLength = hd2.idLength ∧ hd1.colorMapType = hd2.colorMapType ∧
      hd1.imageType = hd2.imageType ∧ hd1.colorMapLength = hd2.colorMapLength ∧
      hd1.colorMapEntryDepth = hd2.colorMapEntryDepth ∧ hd1.xOrigin = hd2.xOrigin ∧
      hd1.yOrigin = hd2.yOrigin ∧ hd1.width = hd2.width ∧ hd1.height = hd2.height ∧
      hd1.pixelDepth = hd2.pixelDepth ∧ hd1.descriptor = hd2.descriptor) := by
  have e0 := leRead_congr d1 d2 hagree 0 1 (by omega)
  have e1 := leRead_congr d1 d2 hagree 1 1 (by omega)
  have e2 := leRead_congr d1 d2 hagree 2 1 (by omega)
  have e5 := leRead_congr d1 d2 hagree 5 2 (by omega)
  have e7 := leRead_congr d1 d2 hagree 7 1 (by omega)
  have e8 := leRead_congr d1 d2 hagree 8 2 (by omega)
  have e10 := leRead_congr d1 d2 hagree 10 2 (by omega)
  have e12 := leRead_congr d1 d2 hagree 12 2 (by omega)
  have e14 := leRead_congr d1 d2 hagree 14 2 (by omega)
  have e16 := leRead_congr d1 d2 hagree 16 1 (by omega)
  have e17 := leRead_congr d1 d2 hagree 17 1 (by omega)
  by_cases h18 : 18 ≤ d1.size
  · right
    refine ⟨_, _, readHeader_ok_eq d1 h18, readHeader_ok_eq d2 (by omega), ?_⟩
    rw [e0, e1, e2, e5, e7, e8, e10, e12, e14, e16, e17]
    split_ifs with c1
    · exact ⟨rfl, rfl, rfl, rfl, rfl, rfl, rfl, rfl, rfl, rfl, rfl⟩
    · exact ⟨rfl, rfl, rfl, rfl, rfl, rfl, rfl, rfl, rfl, rfl, rfl⟩
  · left
    simp only [readHeader, readItem, bind]
    rw [hsize]
    repeat'
      first
      | exact ⟨_, rfl, rfl⟩
      | omega
      | (dsimp only [Except.bind]; split_ifs)

theorem readColorMap_ptr (data : Array Nat) (info : TgaInfo) (p : Nat) :
    p ≤ (readColorMap data info p).2 := by
  unfold readColorMap
  split_ifs with h
  · exact Nat.le_refl p
  · dsimp only
    omega

theorem readColorMap_congr2 (d1 d2 : Array Nat) (hsize : d1.size = d2.size)
    (hagree : ∀ i, i ≠ 3 → i ≠ 4 → d1.getD i 0 = d2.getD i 0)
    (info1 info2 : TgaInfo) (p : Nat) (hp : 5 ≤ p)
    (hct : info1.colorMapType = info2.colorMapType)
    (hced : info1.colorMapEntryDepth = info2.colorMapEntryDepth)
    (hcl : info1.colorMapLength = info2.colorMapLength) :
    readColorMap d1 info1 p = readColorMap d2 info2 p := by
  unfold readColorMap
  rw [hct, hced, hcl]
  split_ifs with h
  · rfl
  · dsimp only
    rw [extract_congr d1 d2 hsize hagree p _ hp]

theorem readImageData_congr2 (d1 d2 : Array Nat) (hsize : d1.size = d2.size)
    (hagree : ∀ i, i ≠ 3 → i ≠ 4 → d1.getD i 0 = d2.getD i 0)
    (info1 info2 : TgaInfo) (p : Nat) (hp : 5 ≤ p)
    (hrle : info1.isRle = info2.isRle)
    (hps : info1.pixelSize = info2.pixelSize)
    (hpc : info1.pixelCount = info2.pixelCount) :
    readImageData d1 info1 p = readImageData d2 info2 p := by
  unfold readImageData
  rw [hrle, hps, hpc]
  split_ifs with h
  · dsimp only
    rw [extract_congr d1 d2 hsize hagree p _ hp]
  · dsimp only
    exact readImageDataLoop_congr d1 d2 hsize hagree _ _ _ _ _ _ hp

/-! ### Concrete sample inputs -/

/-- A minimal 1 × 1 uncompressed true-color image: 18-byte header
(`imageType = 2`, `pixelDepth = 24`, `width = height = 1`) followed by the
three pixel bytes `10 20 30`. -/
def sampleTrueColor : Array Nat :=
  #[0, 0, 2, 0, 0, 0, 0, 0, 0, 0, 0, 0, 1, 0, 1, 0, 24, 0, 0x10, 0x20, 0x30]

/-- The header record that `readHeader` produces for `sampleTrueColor`. -/
def sampleTrueColorHeader : TgaHeader :=
  { idLength := 0, colorMapType := 0, imageType := 2, colorMapStart := 0,
    colorMapLength := 0, colorMapEntryDepth := 0, xOrigin := 0, yOrigin := 0,
    width := 1, height := 1, pixelDepth := 24, descriptor := 0 }

/-- `sampleTrueColor` with the two `colorMapStart` bytes (offsets 3-4)
changed to a nonzero value. -/
def sampleTrueColorAltStart : Array Nat :=
  #[0, 0, 2, 7, 9, 0, 0, 0, 0, 0, 0, 0, 1, 0, 1, 0, 24, 0, 0x10, 0x20, 0x30]

/-- The record that `parseTgaData` produces for `sampleTrueColor`. -/
def sampleTrueColorResult : TgaResult :=
  { imageData := #[48, 32, 16, 255], width := 1, height := 1 }

/-- The same 1 × 1 true-color header as `sampleTrueColor` but with the three
declared pixel bytes missing entirely: the buffer is exactly 18 bytes. -/
def sampleTruncated : Array Nat :=
  #[0, 0, 2, 0, 0, 0, 0, 0, 0, 0, 0, 0, 1, 0, 1, 0, 24, 0]

/-- An 18-byte header whose color-map entry depth byte (offset 7) is 15. -/
def sampleDepth15 : Array Nat :=
  #[0, 1, 1, 0, 0, 2, 0, 15, 0, 0, 0, 0, 1, 0, 1, 0, 8, 0]

/-- The header record that `readHeader` produces for `sampleDepth15`:
the entry depth 15 is recorded as 16. -/
def sampleDepth15Header : TgaHeader :=
  { idLength := 0, colorMapType := 1, imageType := 1, colorMapStart := 0,
    colorMapLength := 2, colorMapEntryDepth := 16, xOrigin := 0, yOrigin := 0,
    width := 1, height := 1, pixelDepth := 8, descriptor := 0 }

/-- A 1 × 1 indexed header with 24-bit color-map entries. -/
def sampleIndexedHeader : TgaHeader :=
  { idLength := 0, colorMapType := 1, imageType := 1, colorMapStart := 0,
    colorMapLength := 1, colorMapEntryDepth := 24, xOrigin := 0, yOrigin := 0,
    width := 1, height := 1, pixelDepth := 8, descriptor := 0 }

/-- A 3 × 1 run-length encoded 8-bit grey header (`imageType = 11`). -/
def sampleRleGrey3Header : TgaHeader :=
  { idLength := 0, colorMapType := 0, imageType := 11, colorMapStart := 0,
    colorMapLength := 0, colorMapEntryDepth := 0, xOrigin := 0, yOrigin := 0,
    width := 3, height := 1, pixelDepth := 8, descriptor := 0 }

/-- A 2 × 1 run-length encoded 8-bit grey header (`imageType = 11`). -/
def sampleRleGreyHeader : TgaHeader :=
  { idLength := 0, colorMapType := 0, imageType := 11, colorMapStart := 0,
    colorMapLength := 0, colorMapEntryDepth := 0, xOrigin := 0, yOrigin := 0,
    width := 2, height := 1, pixelDepth := 8, descriptor := 0 }

/-! ### Claims -/

/-- C1. The claim states that the classifier sets `isGrey` to true exactly
when the low two bits of `imageType` are both set (image types 3 and 11),
and in particular that `isGrey = false` for image types 1, 2, 9 and 10.
The code computes `isGrey = !!(imageType & 0b11)`, which is true whenever
either low bit is set, so image types 1, 2, 9 and 10 all get
`isGrey = true` — contradicting the claim, the code's own field comment
(`is monochrome image`) and its `IMAGE_TYPE` table. This theorem evaluates
the classifier at those failing inputs. -/
theorem C1_isGrey_true_for_non_grey_types :
    ((createTgaInfo { sampleTrueColorHeader with imageType := 1 }).isGrey = true) ∧
    ((createTgaInfo { sampleTrueColorHeader with imageType := 2 }).isGrey = true) ∧
    ((createTgaInfo { sampleTrueColorHeader with imageType := 9 }).isGrey = true) ∧
    ((createTgaInfo { sampleTrueColorHeader with imageType := 10 }).isGrey = true) ∧
    ((createTgaInfo { sampleTrueColorHeader with imageType := 3 }).isGrey = true) ∧
    ((createTgaInfo { sampleTrueColorHeader with imageType := 11 }).isGrey = true) := by
  decide

/-- C2 counterexample. The claim says a declared `width * height` whose
pixel bytes exceed the remaining buffer makes the decode fail with a
`TruncatedData` error. On `sampleTruncated` (1 × 1 × 24-bit, zero pixel
bytes remaining) the decode instead completes: `subarray` clamps the pixel
region to the empty array and the missing bytes read as `undefined`,
stored as zeroes. -/
theorem C2_truncated_pixel_data_decode_succeeds :
    parseTgaData sampleTruncated =
      .ok { imageData := #[0, 0, 0, 255], width := 1, height := 1 } := by
  rfl

/-- C2 amended. Reads of the color-map region and of the raw (non-RLE)
pixel-data region never fail, whatever the buffer length: `subarray` clamps
the requested range to the available bytes, so both readers return a region
of size `min requested available` and decoding proceeds. Only header-field
reads (`readItem`) can fail with the `TruncatedData` error. -/
theorem C2_amended_reads_clamp (data : Array Nat) (info : TgaInfo) (pointer : Nat) :
    (info.isRle = false →
      ∃ bytes, readImageData data info pointer =
          .ok (bytes, pointer + info.pixelCount * info.pixelSize) ∧
        bytes.size = min (info.pixelCount * info.pixelSize) (data.size - pointer)) ∧
    (info.colorMapType ≠ 0 →
      ∃ region, (readColorMap data info pointer).1 = some region ∧
        region.size =
          min (info.colorMapLength * (info.colorMapEntryDepth >>> 3))
            (data.size - pointer)) := by
  constructor
  · intro hrle
    refine ⟨data.extract pointer (pointer + info.pixelCount * info.pixelSize), ?_, ?_⟩
    · unfold readImageData
      rw [hrle]
      rfl
    · rw [Array.size_extract]
      omega
  · intro hcm
    unfold readColorMap
    rw [if_neg hcm]
    exact ⟨_, rfl, by rw [Array.size_extract]; omega⟩

/-- Witness for C2 amended: the truncated sample's pixel-data read yields a
zero-length region without failing. -/
theorem C2_amended_reads_clamp_witness :
    ∃ bytes, readImageData sampleTruncated (createTgaInfo sampleTrueColorHeader) 18 =
        .ok (bytes, 18 + (createTgaInfo sampleTrueColorHeader).pixelCount *
          (createTgaInfo sampleTrueColorHeader).pixelSize) ∧
      bytes.size = min ((createTgaInfo sampleTrueColorHeader).pixelCount *
        (createTgaInfo sampleTrueColorHeader).pixelSize) (sampleTruncated.size - 18) :=
  (C2_amended_reads_clamp sampleTruncated (createTgaInfo sampleTrueColorHeader) 18).1 rfl

/-- C8. On the RLE path the decoder's output buffer is allocated at exactly
`pixelCount * pixelSize` bytes and the returned buffer has exactly that
length: raw-packet stores past the end are discarded (`result[current++]`
on a typed array ignores out-of-range writes) and an RLE-packet `set` that
would overrun throws instead of writing, so no byte is ever stored beyond
the allocation. -/
theorem C8_rle_output_exact_size (data : Array Nat) (info : TgaInfo) (pointer : Nat)
    (out : Array Nat) (p2 : Nat) (hrle : info.isRle = true)
    (h : readImageData data info pointer = .ok (out, p2)) :
    out.size = info.pixelCount * info.pixelSize := by
  unfold readImageData at h
  rw [hrle] at h
  simp only [Bool.not_true] at h
  rw [if_neg (by decide)] at h
  have := readImageDataLoop_ok_size _ _ _ _ _ _ _ _ _ h
  simpa [Array.size_mkArray] using this

/-- Witness for C8: decoding the RLE stream `[0x81, 0xFF]` for a 2 × 1
8-bit image returns a buffer of exactly `pixelCount * pixelSize = 2` bytes. -/
theorem C8_rle_output_exact_size_witness :
    (#[255, 255] : Array Nat).size =
      (createTgaInfo sampleRleGreyHeader).pixelCount *
        (createTgaInfo sampleRleGreyHeader).pixelSize :=
  C8_rle_output_exact_size #[0x81, 0xFF] (createTgaInfo sampleRleGreyHeader) 0
    #[255, 255] 2 rfl rfl

/-- C3. Whenever the decode succeeds, the returned record's `width` and
`height` equal the header's `width` and `height` fields, and the pixel
buffer holds exactly `width * height * 4` bytes (RGBA8 per pixel). -/
theorem C3_output_dimensions (data : Array Nat) (header : TgaHeader) (p : Nat)
    (r : TgaResult) (hh : readHeader data 0 = .ok (header, p))
    (hr : parseTgaData data = .ok r) :
    r.width = header.width ∧ r.height = header.height ∧
    r.imageData.size = r.width * r.height * 4 := by
  unfold parseTgaData at hr
  rw [hh] at hr
  simp only [bind, Except.bind] at hr
  rcases hcm : readColorMap data (createTgaInfo header) (p + header.idLength) with ⟨cm, p2⟩
  rw [hcm] at hr
  dsimp only at hr
  cases hri : readImageData data (createTgaInfo header) p2 with
  | error e => rw [hri] at hr; cases hr
  | ok rawOut =>
    rcases rawOut with ⟨raw, p3⟩
    rw [hri] at hr
    dsimp only at hr
    cases hpi : parseImageData (createTgaInfo header) raw cm with
    | error e => rw [hpi] at hr; cases hr
    | ok display =>
      rw [hpi] at hr
      simp only [pure, Except.pure] at hr
      cases hr
      refine ⟨rfl, rfl, ?_⟩
      have := parseImageData_ok_size _ _ _ _ hpi
      simpa [createTgaInfo] using this

/-- Witness for C3: the minimal 1 × 1 true-color image decodes to a 4-byte
RGBA buffer with the header's dimensions. -/
theorem C3_output_dimensions_witness :
    sampleTrueColorResult.width = sampleTrueColorHeader.width ∧
    sampleTrueColorResult.height = sampleTrueColorHeader.height ∧
    sampleTrueColorResult.imageData.size =
      sampleTrueColorResult.width * sampleTrueColorResult.height * 4 :=
  C3_output_dimensions sampleTrueColor sampleTrueColorHeader 18 sampleTrueColorResult
    rfl rfl

/-- C6. Every buffer shorter than 18 bytes fails header parsing with the
`TruncatedData` error (`No enough data to read ...`): the first header field
whose end offset exceeds the buffer length aborts the read, and the whole
decode returns that same error. A 2-byte field over the bytes
`[0x34, 0x12]` reads as the little-endian value `0x1234`. -/
theorem C6_short_buffer_truncated (data : Array Nat) (hlt : data.size < 18) :
    (∃ s e, e > data.size ∧ readHeader data 0 = .error (.noEnoughData s e) ∧
      parseTgaData data = .error (.noEnoughData s e)) ∧
    readItem #[0x34, 0x12] 0 2 = .ok (0x1234, 2) := by
  refine ⟨?_, rfl⟩
  obtain ⟨s, e, hgt, herr⟩ := readHeader_short_err data hlt
  exact ⟨s, e, hgt, herr, parseTgaData_header_error data _ herr⟩

/-- Witness for C6: the empty buffer fails header parsing and decoding. -/
theorem C6_short_buffer_truncated_witness :
    (∃ s e, e > (#[] : Array Nat).size ∧ readHeader #[] 0 = .error (.noEnoughData s e) ∧
      parseTgaData #[] = .error (.noEnoughData s e)) ∧
    readItem #[0x34, 0x12] 0 2 = .ok (0x1234, 2) :=
  C6_short_buffer_truncated #[] (by decide)

/-- C9. When header parsing succeeds, a color-map entry depth byte read as
15 is recorded as 16 and any other value is recorded unchanged, while every
other header field equals the raw little-endian value of its bytes — the
normalization touches nothing else. -/
theorem C9_entry_depth_normalization (data : Array Nat) (hdr : TgaHeader) (p : Nat)
    (h : readHeader data 0 = .ok (hdr, p)) :
    (data.getD 7 0 = 15 → hdr.colorMapEntryDepth = 16) ∧
    (data.getD 7 0 ≠ 15 → hdr.colorMapEntryDepth = data.getD 7 0) ∧
    hdr.idLength = data.getD 0 0 ∧
    hdr.colorMapType = data.getD 1 0 ∧
    hdr.imageType = data.getD 2 0 ∧
    hdr.colorMapStart = leRead data 3 2 ∧
    hdr.colorMapLength = leRead data 5 2 ∧
    hdr.xOrigin = leRead data 8 2 ∧
    hdr.yOrigin = leRead data 10 2 ∧
    hdr.width = leRead data 12 2 ∧
    hdr.height = leRead data 14 2 ∧
    hdr.pixelDepth = data.getD 16 0 ∧
    hdr.descriptor = data.getD 17 0 := by
  have h18 : 18 ≤ data.size := by
    by_contra hc
    obtain ⟨s, e, hgt, herr⟩ := readHeader_short_err data (by omega)
    rw [herr] at h
    cases h
  rw [readHeader_ok_eq data h18] at h
  injection h with h1
  injection h1 with h2 h3
  subst h2
  split_ifs with h15
  · rw [leRead_one] at h15
    exact ⟨fun _ => rfl, fun hc => absurd h15 hc, leRead_one data 0, leRead_one data 1,
      leRead_one data 2, rfl, rfl, rfl, rfl, rfl, rfl, leRead_one data 16, leRead_one data 17⟩
  · rw [leRead_one] at h15
    exact ⟨fun hb => absurd hb h15, fun _ => leRead_one data 7, leRead_one data 0,
      leRead_one data 1, leRead_one data 2, rfl, rfl, rfl, rfl, rfl, rfl,
      leRead_one data 16, leRead_one data 17⟩

/-- Witness for C9: a header whose entry depth byte is 15 parses with
`colorMapEntryDepth = 16` and all other fields unchanged. -/
theorem C9_entry_depth_normalization_witness :
    (sampleDepth15.getD 7 0 = 15 → sampleDepth15Header.colorMapEntryDepth = 16) ∧
    (sampleDepth15.getD 7 0 ≠ 15 →
      sampleDepth15Header.colorMapEntryDepth = sampleDepth15.getD 7 0) ∧
    sampleDepth15Header.idLength = sampleDepth15.getD 0 0 ∧
    sampleDepth15Header.colorMapType = sampleDepth15.getD 1 0 ∧
    sampleDepth15Header.imageType = sampleDepth15.getD 2 0 ∧
    sampleDepth15Header.colorMapStart = leRead sampleDepth15 3 2 ∧
    sampleDepth15Header.colorMapLength = leRead sampleDepth15 5 2 ∧
    sampleDepth15Header.xOrigin = leRead sampleDepth15 8 2 ∧
    sampleDepth15Header.yOrigin = leRead sampleDepth15 10 2 ∧
    sampleDepth15Header.width = leRead sampleDepth15 12 2 ∧
    sampleDepth15Header.height = leRead sampleDepth15 14 2 ∧
    sampleDepth15Header.pixelDepth = sampleDepth15.getD 16 0 ∧
    sampleDepth15Header.descriptor = sampleDepth15.getD 17 0 :=
  C9_entry_depth_normalization sampleDepth15 sampleDepth15Header 18 rfl

/-- C5. A 2-byte non-indexed non-grey entry is decoded as a little-endian
16-bit word `w = b1 * 256 + b0` packed 5-5-5: bits 14-10 are red
(`(w / 1024) % 32`), bits 9-5 green (`(w / 32) % 32`), bits 4-0 blue
(`w % 32`); each 5-bit channel `v` expands to 8 bits as
`(v <<< 3) | (v >>> 2) = v * 8 + v / 4`, and alpha is 255. The word
`0b0111110000000000` (red channel 31) yields red 255. -/
theorem C5_two_byte_rgb555 (b0 b1 : Nat) (h0 : b0 < 256) (h1 : b1 < 256) :
    getColorFrom2ByteEntry #[b0, b1] =
      [some ((((b1 * 256 + b0) / 1024) % 32) * 8 + (((b1 * 256 + b0) / 1024) % 32) / 4),
       some ((((b1 * 256 + b0) / 32) % 32) * 8 + (((b1 * 256 + b0) / 32) % 32) / 4),
       some (((b1 * 256 + b0) % 32) * 8 + ((b1 * 256 + b0) % 32) / 4),
       some 255] ∧
    getColorFrom2ByteEntry #[0x00, 0b01111100] = [some 255, some 0, some 0, some 255] := by
  refine ⟨?_, by decide⟩
  simp only [getColorFrom2ByteEntry]
  have hval : ((#[b0, b1] : Array Nat).getD 1 0 <<< 8) ||| (#[b0, b1] : Array Nat).getD 0 0 =
      b1 * 256 + b0 := by
    show (b1 <<< 8) ||| b0 = b1 * 256 + b0
    have hb0 : b0 < 2 ^ 8 := by
      norm_num
      omega
    have h := lor_shiftLeft_eq_add b1 b0 8 hb0
    simpa using h
  rw [hval]
  have hr : ∀ w : Nat, (w &&& 31744) >>> 10 = (w / 1024) % 32 := fun w => by
    rw [show (31744 : Nat) = 31 <<< 10 by decide, maskShift_eq]
    norm_num
  have hg : ∀ w : Nat, (w &&& 992) >>> 5 = (w / 32) % 32 := fun w => by
    rw [show (992 : Nat) = 31 <<< 5 by decide, maskShift_eq]
    norm_num
  have hb : ∀ w : Nat, (w &&& 31) >>> 0 = w % 32 := fun w => by
    rw [Nat.shiftRight_zero, and31_eq_mod]
  rw [hr, hg, hb, expand5 _ (Nat.mod_lt _ (by norm_num)),
    expand5 _ (Nat.mod_lt _ (by norm_num)), expand5 _ (Nat.mod_lt _ (by norm_num))]

/-- Witness for C5: the bytes `[0x00, 0x7C]` (word `0x7C00`, red = 31)
decode to red 255, green 0, blue 0, alpha 255. -/
theorem C5_two_byte_rgb555_witness :
    getColorFrom2ByteEntry #[0, 124] =
      [some ((((124 * 256 + 0) / 1024) % 32) * 8 + (((124 * 256 + 0) / 1024) % 32) / 4),
       some ((((124 * 256 + 0) / 32) % 32) * 8 + (((124 * 256 + 0) / 32) % 32) / 4),
       some (((124 * 256 + 0) % 32) * 8 + ((124 * 256 + 0) % 32) / 4),
       some 255] ∧
    getColorFrom2ByteEntry #[0x00, 0b01111100] = [some 255, some 0, some 0, some 255] :=
  C5_two_byte_rgb555 0 124 (by decide) (by decide)

/-- C7 counterexample. The claim says a palette index whose byte offset is
at or past the color-map region's length makes the decode fail with a
`TruncatedData`-class error. In fact `subarray` clamps the out-of-range
slice to an empty entry, whose bytes read as `undefined`, and the lookup
returns a color: with 3-byte entries and a one-entry map, index 5 yields
`[undefined, undefined, undefined, 255]` (stored as black) and no error. -/
theorem C7_out_of_range_index_yields_color :
    getColorMapPixel (createTgaInfo sampleIndexedHeader) #[0xAA, 0xBB, 0xCC] (some 5) =
      .ok [none, none, none, some 255] := by
  rfl

/-- C7 amended. For every palette index whose byte offset
`index * colorMapEntrySize` is at or past the color-map region's length,
the lookup does not fail (for the supported entry sizes 2, 3 and 4):
slicing clamps the entry to the empty array, and the lookup returns the
color computed from an all-`undefined` entry — `[0, 0, 0, 255]` after the
2-byte decoding, `[undefined, undefined, undefined, 255]` for 3-byte
entries, and likewise for 4-byte entries with alpha depending on
`alphaDepth`. -/
theorem C7_amended_out_of_range_index_clamps (info : TgaInfo) (colorMap : Array Nat)
    (i : Nat) (hout : colorMap.size ≤ i * info.colorMapEntrySize) :
    (info.colorMapEntrySize = 2 →
      getColorMapPixel info colorMap (some i) = .ok [some 0, some 0, some 0, some 255]) ∧
    (info.colorMapEntrySize = 3 →
      getColorMapPixel info colorMap (some i) = .ok [none, none, none, some 255]) ∧
    (info.colorMapEntrySize = 4 →
      getColorMapPixel info colorMap (some i) =
        .ok [none, none, none, if info.alphaDepth = 8 then none else some 255]) := by
  refine ⟨?_, ?_, ?_⟩ <;> intro hsz <;> rw [hsz] at hout
  · simp only [getColorMapPixel, hsz]
    rw [extract_of_le _ _ _ hout]
    rfl
  · simp only [getColorMapPixel, hsz]
    rw [extract_of_le _ _ _ hout]
    rfl
  · simp only [getColorMapPixel, hsz]
    rw [extract_of_le _ _ _ hout]
    simp only [getColorFrom4ByteEntry]
    split_ifs <;> rfl

/-- Witness for C7 amended: a fully out-of-range index into a 2-byte-entry
color map returns opaque black without failing. -/
theorem C7_amended_out_of_range_index_clamps_witness :
    getColorMapPixel (createTgaInfo sampleDepth15Header) #[0xAA, 0xBB] (some 5) =
      .ok [some 0, some 0, some 0, some 255] :=
  (C7_amended_out_of_range_index_clamps (createTgaInfo sampleDepth15Header)
    #[0xAA, 0xBB] 5 (by decide)).1 rfl


/-- C4. RLE packet processing: each packet starts with one header byte whose
high bit selects the packet kind and whose low 7 bits plus one give the
count `n` in `1..128`; an RLE packet (high bit set) reads one
`pixelSize`-byte pixel and writes it `n` consecutive times; a raw packet
(high bit clear) copies `n * pixelSize` bytes verbatim. With `pixelSize` 1,
the stream `[0x81, 0xFF]` expands to `[0xFF, 0xFF]` and
`[0x02, 0x10, 0x20, 0x30]` expands to `[0x10, 0x20, 0x30]`. -/
theorem C4_rle_packet_processing :
    (∀ hb : Fin 256,
      (((hb.val &&& 0b10000000) >>> 7 = 1) ↔ 128 ≤ hb.val) ∧
      1 ≤ (hb.val &&& 0b01111111) + 1 ∧ (hb.val &&& 0b01111111) + 1 ≤ 128) ∧
    (∀ (info : TgaInfo) (pix : Array Nat) (n : Nat),
      info.isRle = true → 1 ≤ info.pixelSize → 1 ≤ n → n ≤ 128 →
      info.pixelCount = n → pix.size = info.pixelSize →
      ∃ out, readImageData (#[127 + n] ++ pix) info 0 = .ok (out, 1 + info.pixelSize) ∧
        out.size = n * info.pixelSize ∧
        (∀ i r, i < n → r < info.pixelSize →
          out.getD (i * info.pixelSize + r) 0 = pix.getD r 0)) ∧
    (∀ (info : TgaInfo) (bytes : Array Nat) (n : Nat),
      info.isRle = true → 1 ≤ info.pixelSize → 1 ≤ n → n ≤ 128 →
      info.pixelCount = n → bytes.size = n * info.pixelSize →
      ∃ out, readImageData (#[n - 1] ++ bytes) info 0 = .ok (out, 1 + n * info.pixelSize) ∧
        out.size = n * info.pixelSize ∧
        (∀ j, j < n * info.pixelSize → out.getD j 0 = bytes.getD j 0)) ∧
    readImageData #[0x81, 0xFF] (createTgaInfo sampleRleGreyHeader) 0 =
      .ok (#[0xFF, 0xFF], 2) ∧
    readImageData #[0x02, 0x10, 0x20, 0x30] (createTgaInfo sampleRleGrey3Header) 0 =
      .ok (#[0x10, 0x20, 0x30], 4) := by
  refine ⟨by set_option maxRecDepth 4096 in decide, ?_, ?_, rfl, rfl⟩
  · intro info pix n h1 h2 h3 h4 h5 h6
    exact readImageData_rle_packet info pix n h1 h2 h3 h4 h5 h6
  · intro info bytes n h1 h2 h3 h4 h5 h6
    exact readImageData_raw_packet info bytes n h1 h2 h3 h4 h5 h6

/-- Witness for C4: the general packet statements instantiated at the two
concrete example streams. -/
theorem C4_rle_packet_processing_witness :
    (∃ out, readImageData (#[127 + 2] ++ #[0xFF]) (createTgaInfo sampleRleGreyHeader) 0 =
        .ok (out, 1 + (createTgaInfo sampleRleGreyHeader).pixelSize) ∧
      out.size = 2 * (createTgaInfo sampleRleGreyHeader).pixelSize ∧
      (∀ i r, i < 2 → r < (createTgaInfo sampleRleGreyHeader).pixelSize →
        out.getD (i * (createTgaInfo sampleRleGreyHeader).pixelSize + r) 0 =
          (#[0xFF] : Array Nat).getD r 0)) ∧
    (∃ out, readImageData (#[3 - 1] ++ #[0x10, 0x20, 0x30])
        (createTgaInfo sampleRleGrey3Header) 0 =
        .ok (out, 1 + 3 * (createTgaInfo sampleRleGrey3Header).pixelSize) ∧
      out.size = 3 * (createTgaInfo sampleRleGrey3Header).pixelSize ∧
      (∀ j, j < 3 * (createTgaInfo sampleRleGrey3Header).pixelSize →
        out.getD j 0 = (#[0x10, 0x20, 0x30] : Array Nat).getD j 0)) :=
  ⟨C4_rle_packet_processing.2.1 (createTgaInfo sampleRleGreyHeader) #[0xFF] 2
      rfl (by decide) (by decide) (by decide) rfl rfl,
    C4_rle_packet_processing.2.2.1 (createTgaInfo sampleRleGrey3Header) #[0x10, 0x20, 0x30] 3
      rfl (by decide) (by decide) (by decide) rfl rfl⟩

/-- C10. The `colorMapStart` header field, though parsed, never influences
the decode: the palette lookup indexes the color-map region from its start
(`index * colorMapEntrySize`), and no other stage reads the field, so two
input buffers of equal length that agree on every byte except offsets 3-4
(the `colorMapStart` field) decode to the same result — same pixel buffer,
same dimensions, or the same error. -/
theorem C10_colorMapStart_no_influence (d1 d2 : Array Nat) (hsize : d1.size = d2.size)
    (hagree : ∀ i, i ≠ 3 → i ≠ 4 → d1.getD i 0 = d2.getD i 0) :
    parseTgaData d1 = parseTgaData d2 := by
  rcases readHeader_congr d1 d2 hsize hagree with ⟨er, he1, he2⟩ |
    ⟨hd1, hd2, hok1, hok2, f1, f2, f3, f4, f5, f6, f7, f8, f9, f10, f11⟩
  · rw [parseTgaData_header_error d1 er he1, parseTgaData_header_error d2 er he2]
  · obtain ⟨i1, c1, t1, s1, l1, e1, x1, y1, w1, h1, p1, de1⟩ := hd1
    obtain ⟨i2, c2, t2, s2, l2, e2, x2, y2, w2, h2, p2, de2⟩ := hd2
    dsimp only at f1 f2 f3 f4 f5 f6 f7 f8 f9 f10 f11
    subst f1
    subst f2
    subst f3
    subst f4
    subst f5
    subst f6
    subst f7
    subst f8
    subst f9
    subst f10
    subst f11
    unfold parseTgaData
    rw [hok1, hok2]
    simp only [bind, Except.bind]
    rw [readColorMap_congr2 d1 d2 hsize hagree
      (createTgaInfo ⟨i1, c1, t1, s1, l1, e1, x1, y1, w1, h1, p1, de1⟩)
      (createTgaInfo ⟨i1, c1, t1, s2, l1, e1, x1, y1, w1, h1, p1, de1⟩)
      (18 + i1) (by omega) rfl rfl rfl]
    rw [readImageData_congr2 d1 d2 hsize hagree
      (createTgaInfo ⟨i1, c1, t1, s1, l1, e1, x1, y1, w1, h1, p1, de1⟩)
      (createTgaInfo ⟨i1, c1, t1, s2, l1, e1, x1, y1, w1, h1, p1, de1⟩)
      (readColorMap d2 (createTgaInfo ⟨i1, c1, t1, s2, l1, e1, x1, y1, w1, h1, p1, de1⟩)
        (18 + i1)).2
      (Nat.le_trans (by omega) (readColorMap_ptr d2
        (createTgaInfo ⟨i1, c1, t1, s2, l1, e1, x1, y1, w1, h1, p1, de1⟩) (18 + i1)))
      rfl rfl rfl]
    rfl

/-- Witness for C10: the 1 × 1 true-color sample and the same bytes with
the `colorMapStart` field changed decode identically. -/
theorem C10_colorMapStart_no_influence_witness :
    parseTgaData sampleTrueColor = parseTgaData sampleTrueColorAltStart :=
  C10_colorMapStart_no_influence sampleTrueColor sampleTrueColorAltStart rfl
    (by
      intro i h3 h4
      by_cases hi : i < 21
      · interval_cases i <;> first | rfl | (exact absurd rfl h3) | (exact absurd rfl h4)
      · rw [Array.getD_eq_get?, Array.getD_eq_get?,
          Array.getElem?_len_le _ (show sampleTrueColor.size ≤ i by
            show 21 ≤ i
            omega),
          Array.getElem?_len_le _ (show sampleTrueColorAltStart.size ≤ i by
            show 21 ≤ i
            omega)])

end Tga
